import Mathlib

/-!
Shallow embedding of the Loop Ledger pattern-parsing engine and proofs of the
specification claims about it.  The definitions mirror, function by function,
the TypeScript source: `normalizeCode`, `cleanToken`, `parsePositiveInt`,
`normalizeBodyText`, `getGlossaryLabel`, `parseRoundDrafts`,
`parseSingleOperation`, `parseBodyOperations` and `parsePatternRows`.
Strings are modelled as `List Char`; the JavaScript regular expressions are
translated into deterministic character-level matchers (each regex used by the
source is anchored and, on the normalized inputs it receives, backtracking-free,
so a deterministic translation is exact).
-/

namespace LoopLedger

/-- Glossary entry `{code, title, detail}` (source lines 30-34). -/
structure GlossaryEntry where
  code : String
  title : String
  detail : String
  deriving DecidableEq, Repr, Inhabited

/-- One extracted round draft `{roundNumber, body, raw}` (source lines 48-52). -/
structure RoundDraft where
  roundNumber : Nat
  body : String
  raw : String
  deriving DecidableEq, Repr, Inhabited

/-- Classified operation `{code, label, consume, produce, units, warning?}` (source lines 54-61). -/
structure ParsedOperation where
  code : String
  label : String
  consume : Nat
  produce : Nat
  units : Nat
  warning : Option String := none
  deriving DecidableEq, Repr, Inhabited

/-- Timeline cell `{key, code, count, label}` (source lines 5-10). -/
structure StitchStep where
  key : String
  code : String
  count : Nat
  label : String
  deriving DecidableEq, Repr, Inhabited

/-- Assembled pattern row (source lines 12-21). -/
structure PatternRow where
  id : String
  raw : String
  rowLabel : String
  sequence : List StitchStep
  expanded : List StitchStep
  totalStitches : Nat
  startCount : Nat
  endCount : Nat
  deriving DecidableEq, Repr, Inhabited

/-- Result of a parse `{rows, errors, warnings}` (source lines 36-40). -/
structure ParseResult where
  rows : List PatternRow
  errors : List String
  warnings : List String
  deriving DecidableEq, Repr, Inhabited

/-! Character-level string utilities. -/

/-- JavaScript whitespace class restricted to its ASCII members; the engine
only ever meets these because it works on text split at newlines. -/
def isWS (c : Char) : Bool :=
  c == ' ' || c == '\t' || c == '\n' || c == '\r' || c == '\x0b' || c == '\x0c'

/-- Model of `String.prototype.trim`. -/
def trimList (l : List Char) : List Char :=
  ((l.dropWhile isWS).reverse.dropWhile isWS).reverse

/-- Helper for `collapseWS`; the flag records whether the previous character
was whitespace (whose run has already emitted its single space). -/
def collapseWSAux : Bool → List Char → List Char
  | _, [] => []
  | prevWS, c :: cs =>
    if isWS c then
      if prevWS then collapseWSAux true cs else ' ' :: collapseWSAux true cs
    else
      c :: collapseWSAux false cs

/-- Model of `.replace(/\s+/g, " ")`: each maximal whitespace run becomes one space. -/
def collapseWS (l : List Char) : List Char :=
  collapseWSAux false l

/-- Source `normalizeBodyText` (lines 135-137): collapse whitespace, then trim. -/
def normalizeBodyText (l : List Char) : List Char :=
  trimList (collapseWS l)

/-- Source `normalizeCode` (lines 122-124): drop non-alphanumerics, uppercase. -/
def normalizeCode (l : List Char) : List Char :=
  (l.filter Char.isAlphanum).map Char.toUpper

/-- Model of `String.prototype.split(sep)` for a one-character separator. -/
def splitOnChar (sep : Char) : List Char → List (List Char)
  | [] => [[]]
  | c :: cs =>
    let r := splitOnChar sep cs
    if c == sep then [] :: r
    else
      match r with
      | [] => [[c]]
      | h :: t => (c :: h) :: t

/-- Model of `.replace(/^"|"$/g, "")`, leading-quote half. -/
def stripLeadQuote (l : List Char) : List Char :=
  match l with
  | '"' :: t => t
  | _ => l

/-- Model of `.replace(/^"|"$/g, "")`, trailing-quote half. -/
def stripTrailQuote (l : List Char) : List Char :=
  if l.getLast? == some '"' then l.dropLast else l

/-- Source `cleanToken` (lines 126-128): strip one surrounding pair of quotes,
strip the run of trailing periods, then trim. -/
def cleanToken (l : List Char) : List Char :=
  trimList (((stripTrailQuote (stripLeadQuote l)).reverse.dropWhile (fun c => c == '.')).reverse)

/-- Value of a digit-run capture, as `Number` computes it on an all-digit string. -/
def digitsToNat (l : List Char) : Nat :=
  l.foldl (fun a c => a * 10 + (c.toNat - 48)) 0

/-- Source `parsePositiveInt` (lines 130-133) at its call sites: every call
passes a `\d+` capture, whose `Number` value is the digit value; a value of
zero falls back to 1. -/
def parsePositiveInt (l : List Char) : Nat :=
  let n := digitsToNat l
  if 0 < n then n else 1

/-! Deterministic matcher combinators used to translate the anchored regexes. -/

/-- Consume a case-insensitive literal (the pattern is given in lowercase). -/
def eatLit : List Char → List Char → Option (List Char)
  | [], l => some l
  | _ :: _, [] => none
  | p :: ps, c :: cs => if c.toLower == p then eatLit ps cs else none

/-- Consume `\s+` (one or more whitespace characters). -/
def eatWS1 (l : List Char) : Option (List Char) :=
  match l with
  | c :: cs => if isWS c then some (cs.dropWhile isWS) else none
  | [] => none

/-- Consume `\s*`. -/
def eatWS0 (l : List Char) : List Char :=
  l.dropWhile isWS

/-- Consume `(\d+)`, returning the capture and the rest. -/
def eatDigits1 (l : List Char) : Option (List Char × List Char) :=
  let ds := l.takeWhile Char.isDigit
  if ds.isEmpty then none else some (ds, l.dropWhile Char.isDigit)

/-- Consume an optional single character (`s?`, `\.?`, `,?`), case-insensitively. -/
def eatOptChar (c : Char) (l : List Char) : List Char :=
  match l with
  | x :: t => if x.toLower == c then t else l
  | [] => l

/-- Consume a sequence of `\s+<literal>` groups, one per given word. -/
def eatWSWords : List (List Char) → List Char → Option (List Char)
  | [], l => some l
  | w :: ws, l =>
    match eatWS1 l with
    | some r =>
      match eatLit w r with
      | some r2 => eatWSWords ws r2
      | none => none
    | none => none

/-! Glossary lookup. -/

/-- The `Map` built at source line 403: keys are normalized codes; a later
entry with the same key overwrites an earlier one. -/
def buildGlossaryMap (glossary : List GlossaryEntry) : List (List Char × GlossaryEntry) :=
  glossary.map (fun e => (normalizeCode e.code.data, e))

/-- `Map.get`: the value of the last insertion with the given key. -/
def jsMapGet (m : List (List Char × GlossaryEntry)) (key : List Char) : Option GlossaryEntry :=
  (m.reverse.find? (fun p => p.1 == key)).map (fun p => p.2)

/-- Test for `/^k\d*$/i`-style patterns: the given lowercase letters followed
by only digits. -/
def headThenDigits (letters : List Char) (l : List Char) : Bool :=
  match eatLit letters l with
  | some r => r.all Char.isDigit
  | none => false

/-- Source `getGlossaryLabel` (lines 139-157). -/
def getGlossaryLabel (code : List Char) (gmap : List (List Char × GlossaryEntry)) : String :=
  match jsMapGet gmap (normalizeCode code) with
  | some e => e.title
  | none =>
    if headThenDigits ['k'] code then "Knit"
    else if headThenDigits ['p'] code then "Purl"
    else if headThenDigits ['s', 'l'] code then "Slip"
    else String.mk code

/-! The operation classifier's matchers.  Each one translates one anchored
regex from `parseSingleOperation` (source lines 224-351); the input is the
lowercased, whitespace-collapsed token. -/

/-- Regex `/^k\s+around$/i` (source line 228). -/
def matchKAround (nv : List Char) : Bool :=
  match eatLit ['k'] nv with
  | some r =>
    match eatWS1 r with
    | some r2 => eatLit "around".data r2 == some []
    | none => false
  | none => false

/-- Regex `/^place\s+(\d+)\s+sts?\s+on\s+cn\s+and\s+hold\s+(?:to\s+the\s+back|in\s+front)$/i`
(source line 239); returns the digit capture. -/
def matchPlaceOnCN (nv : List Char) : Option (List Char) :=
  match eatLit "place".data nv with
  | none => none
  | some r =>
  match eatWS1 r with
  | none => none
  | some r =>
  match eatDigits1 r with
  | none => none
  | some (ds, r) =>
  match eatWSWords ["st".data] r with
  | none => none
  | some r =>
  match eatWSWords ["on".data, "cn".data, "and".data, "hold".data] (eatOptChar 's' r) with
  | none => none
  | some r =>
  match eatWSWords ["to".data, "the".data, "back".data] r with
  | some r2 => if r2.isEmpty then some ds else none
  | none =>
    match eatWSWords ["in".data, "front".data] r with
    | some r2 => if r2.isEmpty then some ds else none
    | none => none

/-- Regex `/^k(\d+)\s+from\s+cn$/i` (source line 250); returns the digit capture. -/
def matchFromCN (nv : List Char) : Option (List Char) :=
  match eatLit ['k'] nv with
  | none => none
  | some r =>
  match eatDigits1 r with
  | none => none
  | some (ds, r) =>
  match eatWSWords ["from".data, "cn".data] r with
  | some r2 => if r2.isEmpty then some ds else none
  | none => none

/-- Optional group `(?:\s+(tbl|tlb))?` of the `kNtog` regex. -/
def matchTblSuffix (r : List Char) : Option (List Char × List Char) :=
  match eatWS1 r with
  | some r2 =>
    match eatLit "tbl".data r2 with
    | some r3 => some ("tbl".data, r3)
    | none =>
      match eatLit "tlb".data r2 with
      | some r3 => some ("tlb".data, r3)
      | none => none
  | none => none

/-- Optional group `(?:\s+from\s+cn)?` of the `kNtog` regex. -/
def matchFromCNTail (r : List Char) : List Char :=
  match eatWSWords ["from".data, "cn".data] r with
  | some r2 => r2
  | none => r

/-- Regex `/^k(\d+)tog(?:\s+(tbl|tlb))?(?:\s+from\s+cn)?$/i` (source line 292);
returns the digit capture and the optional suffix capture. -/
def matchKTog (nv : List Char) : Option (List Char × Option (List Char)) :=
  match eatLit ['k'] nv with
  | none => none
  | some r =>
  match eatDigits1 r with
  | none => none
  | some (ds, r) =>
  match eatLit "tog".data r with
  | none => none
  | some r =>
  match matchTblSuffix r with
  | some (s, r2) =>
    if (matchFromCNTail r2).isEmpty then some (ds, some s) else none
  | none =>
    if (matchFromCNTail r).isEmpty then some (ds, none) else none

/-- Regex `/^sl(\d+)$/i` (source line 306); returns the digit capture. -/
def matchSl (nv : List Char) : Option (List Char) :=
  match eatLit "sl".data nv with
  | none => none
  | some r =>
  match eatDigits1 r with
  | some (ds, r) => if r.isEmpty then some ds else none
  | none => none

/-- Regex `/^([kp])(\d+)$/i` (source line 318); returns the lowercased letter
and the digit capture. -/
def matchKPCount (nv : List Char) : Option (Char × List Char) :=
  match nv with
  | c :: rest =>
    if c.toLower == 'k' || c.toLower == 'p' then
      match eatDigits1 rest with
      | some (ds, r) => if r.isEmpty then some (c.toLower, ds) else none
      | none => none
    else none
  | [] => none

/-- Regex `/^([kp])$/i` (source line 331); returns the lowercased letter. -/
def matchSingleKP (nv : List Char) : Option Char :=
  match nv with
  | [c] => if c.toLower == 'k' || c.toLower == 'p' then some c.toLower else none
  | _ => none

/-- The fallback operation of the classifier (source lines 343-350). -/
def fallbackOp (value : List Char) : ParsedOperation :=
  { code := String.mk value, label := String.mk value, consume := 1, produce := 1, units := 1,
    warning := some ("Unknown token \"" ++ String.mk value ++ "\" used fallback consume=1/produce=1.") }

/-- Source `parseSingleOperation` (lines 224-351): clean the token, lowercase
and collapse its whitespace, then try the rules in the source's order. -/
def parseSingleOperation (token : List Char) (gmap : List (List Char × GlossaryEntry)) :
    ParsedOperation :=
  let value := cleanToken token
  let nv := collapseWS (value.map Char.toLower)
  if matchKAround nv then
    { code := "k", label := getGlossaryLabel ['k'] gmap, consume := 1, produce := 1, units := 1 }
  else
    match matchPlaceOnCN nv with
    | some ds =>
      { code := "place" ++ String.mk ds ++ "CN", label := "Cable setup",
        consume := 0, produce := 0, units := 1 }
    | none =>
    match matchFromCN nv with
    | some ds =>
      let count := parsePositiveInt ds
      { code := "k" ++ toString count ++ " from CN", label := "Knit from cable needle",
        consume := count, produce := count, units := count }
    | none =>
    if nv == "k1yok1".data then
      { code := "k1yok1", label := getGlossaryLabel "k1yok1".data gmap,
        consume := 1, produce := 3, units := 1 }
    else if nv == "yo".data then
      { code := "yo", label := getGlossaryLabel "yo".data gmap,
        consume := 0, produce := 1, units := 1 }
    else if nv == "cdd".data then
      { code := "CDD", label := getGlossaryLabel "CDD".data gmap,
        consume := 3, produce := 1, units := 3 }
    else
    match matchKTog nv with
    | some (ds, suf) =>
      let count := parsePositiveInt ds
      let sufStr :=
        match suf with
        | some s => " " ++ (if s == "tlb".data then "tbl" else String.mk s)
        | none => ""
      { code := "k" ++ toString count ++ "tog" ++ sufStr,
        label := getGlossaryLabel ("k" ++ toString count ++ "tog").data gmap,
        consume := count, produce := 1, units := count }
    | none =>
    match matchSl nv with
    | some ds =>
      let count := parsePositiveInt ds
      { code := "sl" ++ toString count,
        label := getGlossaryLabel ("sl" ++ toString count).data gmap,
        consume := count, produce := count, units := count }
    | none =>
    match matchKPCount nv with
    | some (op, ds) =>
      let count := parsePositiveInt ds
      { code := String.mk [op] ++ toString count,
        label := getGlossaryLabel (String.mk [op] ++ toString count).data gmap,
        consume := count, produce := count, units := count }
    | none =>
    match matchSingleKP nv with
    | some op =>
      { code := String.mk [op], label := getGlossaryLabel [op] gmap,
        consume := 1, produce := 1, units := 1 }
    | none => fallbackOp value

/-! The body expander (source `parseBodyOperations`, lines 353-400). -/

/-- Regex `/^k\s+around\.?$/i` (source line 357). -/
def matchKAroundBody (nb : List Char) : Bool :=
  match eatLit ['k'] nb with
  | none => false
  | some r =>
  match eatWSWords ["around".data] r with
  | some r2 => (eatOptChar '.' r2).isEmpty
  | none => false

/-- Tail `\s*,?\s*rep\s+from\s+\*\s+to\s+\*\s+(\d+)\s+times?\.?$` of the repeat
regex (source line 373); returns the digit capture. -/
def matchRepeatTail (suf : List Char) : Option (List Char) :=
  match eatLit "rep".data (eatWS0 (eatOptChar ',' (eatWS0 suf))) with
  | none => none
  | some r =>
  match eatWSWords ["from".data, ['*'], "to".data, ['*']] r with
  | none => none
  | some r =>
  match eatWS1 r with
  | none => none
  | some r =>
  match eatDigits1 r with
  | none => none
  | some (ds, r) =>
  match eatWSWords ["time".data] r with
  | some r2 => if (eatOptChar '.' (eatOptChar 's' r2)).isEmpty then some ds else none
  | none => none

/-- All decompositions `l = pre ++ '*' :: suf`, in order of increasing `pre`. -/
def starSplits : List Char → List (List Char × List Char)
  | [] => []
  | c :: cs =>
    (if c == '*' then [((([] : List Char)), cs)] else []) ++
      (starSplits cs).map (fun p => (c :: p.1, p.2))

/-- Regex `/^\*(.+)\*\s*,?\s*rep\s+from\s+\*\s+to\s+\*\s+(\d+)\s+times?\.?$/i`
(source line 373).  The greedy `(.+)` takes the longest nonempty inner segment
whose closing `*` is followed by a matching tail, i.e. the last workable
decomposition; returns the inner capture and the digit capture. -/
def matchRepeatBody (nb : List Char) : Option (List Char × List Char) :=
  match nb with
  | c :: rest =>
    if c == '*' then
      ((starSplits rest).filterMap (fun p =>
        if p.1.isEmpty then none
        else (matchRepeatTail p.2).map (fun ds => (p.1, ds)))).getLast?
    else none
  | [] => none

/-- The `parseTokenList` closure (source lines 375-380): split on commas,
clean, drop empties, classify. -/
def parseTokenList (text : List Char) (gmap : List (List Char × GlossaryEntry)) :
    List ParsedOperation :=
  (((splitOnChar ',' text).map cleanToken).filter (fun t => !t.isEmpty)).map
    (fun t => parseSingleOperation t gmap)

/-- Source `parseBodyOperations` (lines 353-400). -/
def parseBodyOperations (body : List Char) (currentStitches : Nat)
    (gmap : List (List Char × GlossaryEntry)) : List ParsedOperation × List String :=
  let nb := normalizeBodyText body
  if matchKAroundBody nb then
    let stitches := max 1 currentStitches
    ([{ code := "k" ++ toString stitches, label := getGlossaryLabel ['k'] gmap,
        consume := stitches, produce := stitches, units := stitches }], [])
  else
    let operations :=
      match matchRepeatBody nb with
      | some (inner, nstr) =>
        let times := parsePositiveInt nstr
        let blockOps := parseTokenList (trimList inner) gmap
        (List.replicate times blockOps).flatten
      | none => parseTokenList nb gmap
    (operations, operations.filterMap (fun op => op.warning))

/-! The round draft extractor (source `parseRoundDrafts`, lines 159-222). -/

/-- Regex `/^note\s*:/i` (source line 172). -/
def matchNoteLine (l : List Char) : Bool :=
  match eatLit "note".data l with
  | some r =>
    match eatWS0 r with
    | ':' :: _ => true
    | _ => false
  | none => false

/-- The alternation `(Rnds?|Rows?)`, case-insensitive. -/
def eatRoundWord (l : List Char) : Option (List Char) :=
  match eatLit "rnd".data l with
  | some r => some (eatOptChar 's' r)
  | none =>
    match eatLit "row".data l with
    | some r => some (eatOptChar 's' r)
    | none => none

/-- Regex `/^(Rnds?|Rows?)\s*\d/i` (source line 176): does the line start a new
logical line? -/
def startsRoundLine (l : List Char) : Bool :=
  match eatRoundWord l with
  | some r =>
    match eatWS0 r with
    | c :: _ => c.isDigit
    | [] => false
  | none => false

/-- Character class `[\d,\s]`. -/
def isHeaderClass (c : Char) : Bool :=
  c.isDigit || c == ',' || isWS c

/-- One attempt of the header regex `/(Rnds?|Rows?)\s*[\d,\s]+:/i` at the head
of `l` (since `\s` is inside the class, `\s*[\d,\s]+` matches exactly a
nonempty run of class characters); returns the matched text and the rest. -/
def matchHeaderAt (l : List Char) : Option (List Char × List Char) :=
  match eatRoundWord l with
  | some r =>
    let run := r.takeWhile isHeaderClass
    let rest := r.dropWhile isHeaderClass
    if run.isEmpty then none
    else
      match rest with
      | ':' :: rest2 => some (l.take (l.length - rest2.length), rest2)
      | _ => none
  | none => none

/-- Global scan of the header regex (`matchAll`): try each position left to
right, resuming after each match.  Fuel is the remaining length, which bounds
the number of steps. -/
def scanHeadersAux : Nat → List Char → Nat → List (Nat × List Char)
  | 0, _, _ => []
  | _ + 1, [], _ => []
  | fuel + 1, c :: cs, pos =>
    match matchHeaderAt (c :: cs) with
    | some (h, rest) => (pos, h) :: scanHeadersAux fuel rest (pos + h.length)
    | none => scanHeadersAux fuel cs (pos + 1)

/-- All header matches of a logical line, with their start indices. -/
def scanHeaders (l : List Char) : List (Nat × List Char) :=
  scanHeadersAux l.length l 0

/-- Helper for `digitRuns`: the accumulator is the current run, reversed. -/
def digitRunsAux : List Char → List Char → List (List Char)
  | acc, [] => if acc.isEmpty then [] else [acc.reverse]
  | acc, c :: cs =>
    if c.isDigit then digitRunsAux (c :: acc) cs
    else if acc.isEmpty then digitRunsAux [] cs
    else acc.reverse :: digitRunsAux [] cs

/-- Model of `.match(/\d+/g)`: the maximal digit runs, in order. -/
def digitRuns (l : List Char) : List (List Char) :=
  digitRunsAux [] l

/-- Source lines 198-218: for each header occurrence, slice the body up to the
next occurrence, extract the round numbers, and emit one draft per number (or
an error when the header holds no number). -/
def draftsOfMatches (line : List Char) : List (Nat × List Char) → List RoundDraft × List String
  | [] => ([], [])
  | (idx, h) :: rest =>
    let bodyStart := idx + h.length
    let bodyEnd :=
      match rest with
      | (idx2, _) :: _ => idx2
      | [] => line.length
    let body := normalizeBodyText ((line.drop bodyStart).take (bodyEnd - bodyStart))
    let numbers := (digitRuns h).map digitsToNat
    let raw := String.mk (trimList (h ++ ' ' :: body))
    let p := draftsOfMatches line rest
    if numbers.isEmpty then
      (p.1, ("No round numbers found in header \"" ++ String.mk h ++ "\".") :: p.2)
    else
      (numbers.map (fun rn => { roundNumber := rn, body := String.mk body, raw := raw }) ++ p.1,
        p.2)

/-- Source lines 189-219: one logical line yields drafts, or an error when no
header is found in it. -/
def draftsOfLine (line : List Char) : List RoundDraft × List String :=
  let ms := scanHeaders line
  if ms.isEmpty then
    ([], ["Could not find round header in: \"" ++ String.mk line ++ "\""])
  else draftsOfMatches line ms

/-- Source lines 169-187: group physical lines into logical lines, dropping
comment lines and reporting continuations that precede any header. -/
def buildLogicalLines (lines : List (List Char)) : List (List Char) × List String :=
  let p := lines.foldl
    (fun (p : List (List Char) × List String) line =>
      if matchNoteLine line then p
      else if startsRoundLine line then (line :: p.1, p.2)
      else
        match p.1 with
        | [] =>
          (p.1, p.2 ++ ["Unexpected continuation without round header: \"" ++ String.mk line ++ "\""])
        | h :: t => ((h ++ ' ' :: line) :: t, p.2))
    ([], [])
  (p.1.reverse, p.2)

/-- Source `parseRoundDrafts` (lines 159-222). -/
def parseRoundDrafts (input : String) : List RoundDraft × List String :=
  let rawLines :=
    ((splitOnChar '\n' (input.data.filter (fun c => c != '\r'))).map trimList).filter
      (fun l => !l.isEmpty)
  let q := buildLogicalLines rawLines
  let p := q.1.foldl
    (fun (p : List RoundDraft × List String) line =>
      let r := draftsOfLine line
      (p.1 ++ r.1, p.2 ++ r.2))
    ([], [])
  (p.1, q.2 ++ p.2)

/-! The row assembler (source `parsePatternRows`, lines 402-481). -/

/-- Optional group `(?:nd|ow)?` of the back-reference regex. -/
def eatNdOw (r : List Char) : List Char :=
  match eatLit "nd".data r with
  | some r2 => r2
  | none =>
    match eatLit "ow".data r with
    | some r2 => r2
    | none => r

/-- Regex `/^see\s+r(?:nd|ow)?\s*(\d+)\.?$/i` (source line 415); returns the
digit capture. -/
def seeMatch (body : List Char) : Option (List Char) :=
  match eatLit "see".data body with
  | none => none
  | some r =>
  match eatWSWords [['r']] r with
  | none => none
  | some r =>
  match eatDigits1 (eatWS0 (eatNdOw r)) with
  | some (ds, r2) => if (eatOptChar '.' r2).isEmpty then some ds else none
  | none => none

/-- The mutable state of the draft loop: the live stitch count, the
`resolvedBodies` map (as an association list where `set` prepends), and the
accumulated rows, errors and warnings. -/
structure FoldState where
  live : Nat
  resolved : List (Nat × String)
  rows : List PatternRow
  errors : List String
  warnings : List String
  deriving DecidableEq, Repr, Inhabited

/-- `Map.get` on the `resolvedBodies` association list. -/
def lookupResolved (m : List (Nat × String)) (k : Nat) : Option String :=
  (m.find? (fun p => p.1 == k)).map (fun p => p.2)

/-- The `reduce` at source line 459: the net stitch delta of a row's operations. -/
def opsDelta (ops : List ParsedOperation) : Int :=
  ops.foldl (fun s op => s + ((op.produce : Int) - (op.consume : Int))) 0

/-- Index-passing map, modelling `Array.prototype.map`'s `(element, index)`
callback shape. -/
def mapIdxFrom (f : Nat → α → β) : Nat → List α → List β
  | _, [] => []
  | i, a :: as => f i a :: mapIdxFrom f (i + 1) as

/-- Source lines 439-444: the per-operation `StitchStep` sequence. -/
def mkSequence (rn : Nat) (ops : List ParsedOperation) : List StitchStep :=
  mapIdxFrom
    (fun i op =>
      { key := toString rn ++ "-" ++ toString i ++ "-" ++ String.mk (normalizeCode op.code.data),
        code := op.code, count := op.units, label := op.label })
    0 ops

/-- Source lines 447-455: one step expands into `count` one-count cells. -/
def expandStep (si : Nat) (step : StitchStep) : List StitchStep :=
  (List.range step.count).map
    (fun i =>
      { key := step.key ++ "-" ++ toString si ++ "-" ++ toString i,
        code := step.code, count := 1, label := step.label })

/-- Source lines 446-456: the expanded timeline of a row. -/
def mkExpanded (sequence : List StitchStep) : List StitchStep :=
  (mapIdxFrom expandStep 0 sequence).flatten

/-- Source lines 458-471: assemble one `PatternRow` from a draft's round
number, raw text, entering live count and operations. -/
def mkRow (rn : Nat) (raw : String) (live : Nat) (ops : List ParsedOperation) : PatternRow :=
  let sequence := mkSequence rn ops
  let expanded := mkExpanded sequence
  { id := "RND-" ++ toString rn, raw := raw, rowLabel := "RND " ++ toString rn,
    sequence := sequence, expanded := expanded, totalStitches := expanded.length,
    startCount := live, endCount := ((live : Int) + opsDelta ops).toNat }

/-- Warning prefix of source line 432. -/
def roundWarnLabel (rn : Nat) (w : String) : String :=
  "Rnd" ++ toString rn ++ ": " ++ w

/-- Error message of source line 422. -/
def unresolvedMsg (raw : String) (target : Nat) : String :=
  raw ++ ": could not resolve reference to R" ++ toString target ++ "."

/-- Error message of source line 435. -/
def noInstructionsMsg (rn : Nat) : String :=
  "Rnd" ++ toString rn ++ ": no instructions parsed."

/-- Source lines 428-473, after back-reference resolution: store the resolved
body, expand it, and either record the no-instructions error or emit the row
and advance the live count. -/
def continueDraft (gmap : List (List Char × GlossaryEntry)) (st : FoldState) (rn : Nat)
    (raw : String) (resolvedBody : String) : FoldState :=
  let st1 : FoldState := { st with resolved := (rn, resolvedBody) :: st.resolved }
  let pr := parseBodyOperations resolvedBody.data st1.live gmap
  let st2 : FoldState := { st1 with warnings := st1.warnings ++ pr.2.map (roundWarnLabel rn) }
  if pr.1.isEmpty then { st2 with errors := st2.errors ++ [noInstructionsMsg rn] }
  else
    let row := mkRow rn raw st2.live pr.1
    { st2 with rows := st2.rows ++ [row], live := row.endCount }

/-- Source lines 414-474: process one draft.  A `see` body whose target is
missing — or, through the JavaScript falsiness test, present but empty —
records an error and skips the draft. -/
def processDraft (gmap : List (List Char × GlossaryEntry)) (st : FoldState) (d : RoundDraft) :
    FoldState :=
  match seeMatch d.body.data with
  | some tstr =>
    let target := digitsToNat tstr
    match lookupResolved st.resolved target with
    | none => { st with errors := st.errors ++ [unresolvedMsg d.raw target] }
    | some tb =>
      if tb = "" then { st with errors := st.errors ++ [unresolvedMsg d.raw target] }
      else continueDraft gmap st d.roundNumber d.raw tb
  | none => continueDraft gmap st d.roundNumber d.raw d.body

/-- Comparison of the sort at source line 413. -/
def draftLe (a b : RoundDraft) : Prop :=
  a.roundNumber ≤ b.roundNumber

instance : DecidableRel draftLe :=
  fun a b => Nat.decLe a.roundNumber b.roundNumber

instance : IsTotal RoundDraft draftLe :=
  ⟨fun a b => Nat.le_total a.roundNumber b.roundNumber⟩

instance : IsTrans RoundDraft draftLe :=
  ⟨fun _ _ _ hab hbc => Nat.le_trans hab hbc⟩

/-- The stable ascending sort of source line 413. -/
def sortDrafts (ds : List RoundDraft) : List RoundDraft :=
  List.insertionSort draftLe ds

/-- Model of `Array.from(new Set(...))` (source line 479): keep the first
occurrence of each element, in order. -/
def dedupAux : List String → List String → List String
  | _, [] => []
  | seen, s :: rest =>
    if seen.contains s then dedupAux seen rest else s :: dedupAux (s :: seen) rest

/-- Deduplicated warnings, first occurrences first. -/
def dedupFirst (l : List String) : List String :=
  dedupAux [] l

/-- Initial fold state (source lines 405-410): live count clamped to at least
one, errors seeded with the extractor's. -/
def initState (startingStitches : Int) (draftErrors : List String) : FoldState :=
  { live := (max 1 startingStitches).toNat, resolved := [], rows := [], errors := draftErrors,
    warnings := [] }

/-- Source `parsePatternRows` (lines 402-481). -/
def parsePatternRows (input : String) (glossary : List GlossaryEntry)
    (startingStitches : Int) : ParseResult :=
  let gmap := buildGlossaryMap glossary
  let p := parseRoundDrafts input
  let fin := (sortDrafts p.1).foldl (processDraft gmap) (initState startingStitches p.2)
  { rows := fin.rows, errors := fin.errors, warnings := dedupFirst fin.warnings }

/-! The invariant carried through the draft fold: rows are chained by the live
stitch count, the last row's end count is the current live count, and every
row is built by `mkRow` from a nonempty operation list. -/

/-- Relation between consecutive rows: the later row starts where the earlier ended. -/
def rowRel (a b : PatternRow) : Prop :=
  b.startCount = a.endCount

/-- Fold invariant on the assembler state. -/
def RowsOK (st : FoldState) : Prop :=
  List.Chain' rowRel st.rows ∧
  (∀ r, st.rows.getLast? = some r → r.endCount = st.live) ∧
  (∀ r ∈ st.rows, ∃ rn raw live ops, ops ≠ [] ∧ r = mkRow rn raw live ops)

/-- Failure of every classification rule of `parseSingleOperation` on a
normalized token: exactly the condition under which the source reaches its
fallback branch. -/
def noRuleMatch (nv : List Char) : Prop :=
  matchKAround nv = false ∧ matchPlaceOnCN nv = none ∧ matchFromCN nv = none ∧
  nv ≠ "k1yok1".data ∧ nv ≠ "yo".data ∧ nv ≠ "cdd".data ∧
  matchKTog nv = none ∧ matchSl nv = none ∧ matchKPCount nv = none ∧
  matchSingleKP nv = none

instance (nv : List Char) : Decidable (noRuleMatch nv) := by
  unfold noRuleMatch
  infer_instance

/-! Helper lemmas about the index-passing map and row construction. -/


theorem map_mapIdxFrom (g : β → γ) (f : Nat → α → β) :
    ∀ (n : Nat) (l : List α), (mapIdxFrom f n l).map g = mapIdxFrom (fun i a => g (f i a)) n l
  | _, [] => rfl
  | n, a :: as => by simp [mapIdxFrom, map_mapIdxFrom g f (n + 1) as]

theorem mapIdxFrom_const (h : α → β) :
    ∀ (n : Nat) (l : List α), mapIdxFrom (fun _ a => h a) n l = l.map h
  | _, [] => rfl
  | n, a :: as => by simp [mapIdxFrom, mapIdxFrom_const h (n + 1) as]

theorem mem_mapIdxFrom {f : Nat → α → β} {l : List α} :
    ∀ {n : Nat} {b : β}, b ∈ mapIdxFrom f n l → ∃ i a, a ∈ l ∧ b = f i a := by
  induction l with
  | nil => intro n b h; simp [mapIdxFrom] at h
  | cons a as ih =>
    intro n b h
    simp only [mapIdxFrom] at h
    rcases List.mem_cons.mp h with h1 | h2
    · exact ⟨n, a, List.mem_cons_self a as, h1⟩
    · obtain ⟨i, a2, ha2, hb⟩ := ih h2
      exact ⟨i, a2, List.mem_cons_of_mem a ha2, hb⟩

theorem mkSequence_counts (rn : Nat) (ops : List ParsedOperation) :
    (mkSequence rn ops).map (fun s => s.count) = ops.map (fun op => op.units) := by
  unfold mkSequence
  rw [map_mapIdxFrom]
  exact mapIdxFrom_const (fun op => op.units) 0 ops

theorem mkExpanded_length (seq : List StitchStep) :
    (mkExpanded seq).length = (seq.map (fun s => s.count)).sum := by
  unfold mkExpanded
  rw [List.length_flatten, map_mapIdxFrom]
  have hfun : (fun (si : Nat) (step : StitchStep) => (expandStep si step).length) =
      fun _ step => step.count := by
    funext si step
    simp [expandStep]
  rw [hfun, mapIdxFrom_const]

theorem count_of_mem_mkExpanded {seq : List StitchStep} {e : StitchStep}
    (h : e ∈ mkExpanded seq) : e.count = 1 := by
  unfold mkExpanded at h
  rw [List.mem_flatten] at h
  obtain ⟨L, hL, he⟩ := h
  obtain ⟨i, s, _, rfl⟩ := mem_mapIdxFrom hL
  simp only [expandStep, List.mem_map, List.mem_range] at he
  obtain ⟨j, _, rfl⟩ := he
  rfl

theorem continueDraft_ok (gmap : List (List Char × GlossaryEntry)) (st : FoldState) (rn : Nat)
    (raw : String) (body : String) (h : RowsOK st) :
    RowsOK (continueDraft gmap st rn raw body) := by
  obtain ⟨hchain, hlast, hmem⟩ := h
  simp only [continueDraft]
  split
  · exact ⟨hchain, hlast, hmem⟩
  · rename_i hemp
    refine ⟨?_, ?_, ?_⟩
    · rw [List.chain'_append]
      refine ⟨hchain, List.chain'_singleton _, ?_⟩
      intro x hx y hy
      have hy2 : mkRow rn raw st.live (parseBodyOperations body.data st.live gmap).1 = y := by
        simpa using hy
      subst hy2
      exact (hlast x hx).symm
    · intro r hr
      rw [List.getLast?_concat] at hr
      injection hr with hr2
      subst hr2
      rfl
    · intro r hr
      rcases List.mem_append.mp hr with h1 | h2
      · exact hmem r h1
      · have hr2 : r = mkRow rn raw st.live (parseBodyOperations body.data st.live gmap).1 := by
          simpa using h2
        exact ⟨rn, raw, st.live, (parseBodyOperations body.data st.live gmap).1,
          fun hnil => by simp [hnil] at hemp, hr2⟩

theorem processDraft_ok (gmap : List (List Char × GlossaryEntry)) (st : FoldState)
    (d : RoundDraft) (h : RowsOK st) : RowsOK (processDraft gmap st d) := by
  unfold processDraft
  cases hsee : seeMatch d.body.data with
  | none => exact continueDraft_ok gmap st d.roundNumber d.raw d.body h
  | some tstr =>
    dsimp only
    cases hlk : lookupResolved st.resolved (digitsToNat tstr) with
    | none => exact h
    | some tb =>
      dsimp only
      by_cases htb : tb = ""
      · rw [if_pos htb]
        exact h
      · rw [if_neg htb]
        exact continueDraft_ok gmap st d.roundNumber d.raw tb h

theorem foldl_ok (gmap : List (List Char × GlossaryEntry)) :
    ∀ (ds : List RoundDraft) (st : FoldState), RowsOK st →
      RowsOK (ds.foldl (processDraft gmap) st)
  | [], _, h => h
  | d :: ds, st, h => foldl_ok gmap ds _ (processDraft_ok gmap st d h)

theorem initState_ok (s : Int) (es : List String) : RowsOK (initState s es) := by
  refine ⟨List.chain'_nil, ?_, ?_⟩
  · intro r hr
    simp [initState] at hr
  · intro r hr
    simp [initState] at hr

theorem parse_rows_ok (input : String) (glossary : List GlossaryEntry) (s : Int) :
    List.Chain' rowRel (parsePatternRows input glossary s).rows ∧
    ∀ r ∈ (parsePatternRows input glossary s).rows,
      ∃ rn raw live ops, ops ≠ [] ∧ r = mkRow rn raw live ops := by
  have h := foldl_ok (buildGlossaryMap glossary) (sortDrafts (parseRoundDrafts input).1)
    (initState s (parseRoundDrafts input).2) (initState_ok s (parseRoundDrafts input).2)
  exact ⟨h.1, h.2.2⟩

/-! The claims. -/

/-- C1: the emitted rows are produced by processing the extracted drafts in
ascending `roundNumber` order — the draft list the assembler folds over is a
sorted permutation of the drafts, whatever their order in the input text — and
for every pair of consecutive emitted rows the later row's `startCount` equals
the earlier row's `endCount`: the live stitch count is threaded through the
fold without gaps. -/
theorem claim_C1 (input : String) (glossary : List GlossaryEntry) (s : Int) :
    List.Sorted draftLe (sortDrafts (parseRoundDrafts input).1) ∧
    List.Perm (sortDrafts (parseRoundDrafts input).1) (parseRoundDrafts input).1 ∧
    List.Chain' (fun a b => b.startCount = a.endCount)
      (parsePatternRows input glossary s).rows := by
  refine ⟨List.sorted_insertionSort draftLe _, List.perm_insertionSort draftLe _, ?_⟩
  exact (parse_rows_ok input glossary s).1

/-- C2: every emitted row is assembled by `mkRow` from a nonempty operation
list at the entering live count, its `startCount` is that count, and its
`endCount` is `max 0 (startCount + Σ (produce − consume))` — clamped at zero
rather than going negative. -/
theorem claim_C2 (input : String) (glossary : List GlossaryEntry) (s : Int) (r : PatternRow)
    (h : r ∈ (parsePatternRows input glossary s).rows) :
    ∃ rn raw live ops, ops ≠ [] ∧ r = mkRow rn raw live ops ∧ r.startCount = live ∧
      (r.endCount : Int) = max 0 ((r.startCount : Int) + opsDelta ops) := by
  obtain ⟨rn, raw, live, ops, hne, heq⟩ := (parse_rows_ok input glossary s).2 r h
  subst heq
  refine ⟨rn, raw, live, ops, hne, rfl, rfl, ?_⟩
  show (((live : Int) + opsDelta ops).toNat : Int) = max 0 ((live : Int) + opsDelta ops)
  omega

/-- C2 witness: the single row of `"Rnd1: k3tog"` with one starting stitch has
its end count clamped to zero. -/
theorem claim_C2_witness :
    ∃ rn raw live ops, ops ≠ [] ∧
      (parsePatternRows "Rnd1: k3tog" [] 1).rows.headI = mkRow rn raw live ops ∧
      (parsePatternRows "Rnd1: k3tog" [] 1).rows.headI.startCount = live ∧
      ((parsePatternRows "Rnd1: k3tog" [] 1).rows.headI.endCount : Int) =
        max 0 (((parsePatternRows "Rnd1: k3tog" [] 1).rows.headI.startCount : Int) +
          opsDelta ops) :=
  claim_C2 "Rnd1: k3tog" [] 1 _ (by decide)

/-- C3: for every emitted row, `totalStitches` equals the length of
`expanded`, equals the sum of the `count` fields of `sequence` (which are the
`units` of the row's operations), and every entry of `expanded` has count 1. -/
theorem claim_C3 (input : String) (glossary : List GlossaryEntry) (s : Int) (r : PatternRow)
    (h : r ∈ (parsePatternRows input glossary s).rows) :
    r.totalStitches = r.expanded.length ∧
    r.totalStitches = (r.sequence.map (fun step => step.count)).sum ∧
    (∀ e ∈ r.expanded, e.count = 1) ∧
    ∃ ops : List ParsedOperation, ops ≠ [] ∧
      r.sequence.map (fun step => step.count) = ops.map (fun op => op.units) := by
  obtain ⟨rn, raw, live, ops, hne, heq⟩ := (parse_rows_ok input glossary s).2 r h
  subst heq
  refine ⟨rfl, ?_, ?_, ops, hne, ?_⟩
  · exact mkExpanded_length (mkSequence rn ops)
  · intro e he
    exact count_of_mem_mkExpanded he
  · exact mkSequence_counts rn ops

/-- C3 witness: the row of `"Rnd1: sl7, cdd"` (7 + 3 units, 10 expanded cells). -/
theorem claim_C3_witness :
    (parsePatternRows "Rnd1: sl7, cdd" [] 10).rows.headI.totalStitches =
        (parsePatternRows "Rnd1: sl7, cdd" [] 10).rows.headI.expanded.length ∧
    (parsePatternRows "Rnd1: sl7, cdd" [] 10).rows.headI.totalStitches =
        ((parsePatternRows "Rnd1: sl7, cdd" [] 10).rows.headI.sequence.map
          (fun step => step.count)).sum ∧
    (∀ e ∈ (parsePatternRows "Rnd1: sl7, cdd" [] 10).rows.headI.expanded, e.count = 1) ∧
    ∃ ops : List ParsedOperation, ops ≠ [] ∧
      (parsePatternRows "Rnd1: sl7, cdd" [] 10).rows.headI.sequence.map
          (fun step => step.count) = ops.map (fun op => op.units) :=
  claim_C3 "Rnd1: sl7, cdd" [] 10 _ (by decide)

/-- C4: the parse is deterministic — it is a pure function of the input
triple, so equal inputs give structurally equal `ParseResult`s. -/
theorem claim_C4 (t₁ t₂ : String) (g₁ g₂ : List GlossaryEntry) (s₁ s₂ : Int)
    (ht : t₁ = t₂) (hg : g₁ = g₂) (hs : s₁ = s₂) :
    parsePatternRows t₁ g₁ s₁ = parsePatternRows t₂ g₂ s₂ := by
  rw [ht, hg, hs]

/-- C4 witness: two invocations on the same concrete input agree. -/
theorem claim_C4_witness :
    parsePatternRows "Rnd1: k around." [] 8 = parsePatternRows "Rnd1: k around." [] 8 :=
  claim_C4 "Rnd1: k around." "Rnd1: k around." [] [] 8 8 rfl rfl rfl

/-- C5: the classifier is total with a graceful fallback — when no rule
matches the normalized token, the result is the neutral operation
`consume = produce = units = 1` carrying a warning that names the offending
token; and token classification never drops a token: the operation list of a
token list has exactly one operation per nonempty cleaned token, so an
unrecognized token can never cause the empty-operations row rejection. -/
theorem claim_C5 :
    (∀ (token : List Char) (gmap : List (List Char × GlossaryEntry)),
      noRuleMatch (collapseWS ((cleanToken token).map Char.toLower)) →
      parseSingleOperation token gmap = fallbackOp (cleanToken token)) ∧
    (∀ (text : List Char) (gmap : List (List Char × GlossaryEntry)),
      (parseTokenList text gmap).length =
        (((splitOnChar ',' text).map cleanToken).filter (fun t => !t.isEmpty)).length) := by
  constructor
  · intro token gmap h
    obtain ⟨h1, h2, h3, h4, h5, h6, h7, h8, h9, h10⟩ := h
    have e4 : ((collapseWS ((cleanToken token).map Char.toLower)) == "k1yok1".data) = false :=
      beq_eq_false_iff_ne.mpr h4
    have e5 : ((collapseWS ((cleanToken token).map Char.toLower)) == "yo".data) = false :=
      beq_eq_false_iff_ne.mpr h5
    have e6 : ((collapseWS ((cleanToken token).map Char.toLower)) == "cdd".data) = false :=
      beq_eq_false_iff_ne.mpr h6
    simp [parseSingleOperation, h1, h2, h3, e4, e5, e6, h7, h8, h9, h10]
  · intro text gmap
    exact List.length_map _ _

/-- C5 witness: the token `m1l` matches no rule and falls back with a warning. -/
theorem claim_C5_witness :
    noRuleMatch (collapseWS ((cleanToken "m1l".data).map Char.toLower)) ∧
    parseSingleOperation "m1l".data [] = fallbackOp (cleanToken "m1l".data) :=
  ⟨by decide, claim_C5.1 "m1l".data [] (by decide)⟩

/-- C6: a body that is exactly `k around` (case-insensitive, optional trailing
period) expands to the single synthetic operation with
`consume = produce = units = max 1 live`, and Scenario A holds: with 8
starting stitches, `"Rnd1: k around."` yields one row with
`totalStitches = startCount = endCount = 8` and no errors. -/
theorem claim_C6 :
    (∀ (body : List Char) (live : Nat) (gmap : List (List Char × GlossaryEntry)),
      matchKAroundBody (normalizeBodyText body) = true →
      parseBodyOperations body live gmap =
        ([{ code := "k" ++ toString (max 1 live), label := getGlossaryLabel ['k'] gmap,
            consume := max 1 live, produce := max 1 live, units := max 1 live }], [])) ∧
    (parsePatternRows "Rnd1: k around." [] 8).rows.map
        (fun r => (r.totalStitches, r.startCount, r.endCount)) = [(8, 8, 8)] ∧
    (parsePatternRows "Rnd1: k around." [] 8).errors = [] := by
  refine ⟨?_, by decide, by decide⟩
  intro body live gmap h
  simp [parseBodyOperations, h]

/-- C6 witness: the whole-body shortcut at live count 8. -/
theorem claim_C6_witness :
    matchKAroundBody (normalizeBodyText "k around.".data) = true ∧
    parseBodyOperations "k around.".data 8 [] =
      ([{ code := "k" ++ toString (max 1 8), label := getGlossaryLabel ['k'] [],
          consume := max 1 8, produce := max 1 8, units := max 1 8 }], []) :=
  ⟨by decide, claim_C6.1 "k around.".data 8 [] (by decide)⟩

/-- A repeat-shaped body (first character `*`) can never satisfy the
whole-body `k around` test. -/
theorem matchRepeatBody_not_kAround {nb : List Char} {x : List Char × List Char}
    (h : matchRepeatBody nb = some x) : matchKAroundBody nb = false := by
  cases nb with
  | nil => simp [matchRepeatBody] at h
  | cons c rest =>
    by_cases hc : c = '*'
    · subst hc
      have hr : ('*'.toLower == 'k') = false := by decide
      simp [matchKAroundBody, eatLit, hr]
    · simp [matchRepeatBody, beq_iff_eq, hc] at h

/-- C7 counterexample: the body `*k2*, rep from * to * 0 times.` has the
repeat shape with `N = 0`, but the expander emits the inner list once — one
`k2` operation — not the empty concatenation of zero copies that the claim's
`N times` requires. -/
theorem claim_C7_counterexample :
    matchRepeatBody (normalizeBodyText "*k2*, rep from * to * 0 times.".data) =
        some ("k2".data, "0".data) ∧
    digitsToNat "0".data = 0 ∧
    (parseBodyOperations "*k2*, rep from * to * 0 times.".data 5 []).1.map
        (fun op => op.code) = ["k2"] ∧
    (parseBodyOperations "*k2*, rep from * to * 0 times.".data 5 []).1 ≠
      (List.replicate (digitsToNat "0".data)
        (parseTokenList (trimList "k2".data) [])).flatten := by
  exact ⟨by decide, by decide, by decide, by decide⟩

/-- C7 (amended): for a repeat-shaped body, the expander tokenizes the inner
segment once (comma-delimited, cleaned, classified) and concatenates that
operation list `parsePositiveInt N` — that is, `max 1 N` — times, in order;
Scenario B holds: with 12 starting stitches,
`"Rnd1: *k2, p2*, rep from * to * 3 times."` yields one row with
`totalStitches = startCount = endCount = 12` and no errors. -/
theorem claim_C7 :
    (∀ (body : List Char) (live : Nat) (gmap : List (List Char × GlossaryEntry))
      (inner nstr : List Char),
      matchRepeatBody (normalizeBodyText body) = some (inner, nstr) →
      parseBodyOperations body live gmap =
        ((List.replicate (parsePositiveInt nstr)
            (parseTokenList (trimList inner) gmap)).flatten,
          ((List.replicate (parsePositiveInt nstr)
            (parseTokenList (trimList inner) gmap)).flatten).filterMap
              (fun op => op.warning))) ∧
    (parsePatternRows "Rnd1: *k2, p2*, rep from * to * 3 times." [] 12).rows.map
        (fun r => (r.totalStitches, r.startCount, r.endCount)) = [(12, 12, 12)] ∧
    (parsePatternRows "Rnd1: *k2, p2*, rep from * to * 3 times." [] 12).errors = [] := by
  refine ⟨?_, by decide, by decide⟩
  intro body live gmap inner nstr h
  have hk := matchRepeatBody_not_kAround h
  simp [parseBodyOperations, hk, h]

/-- C7 witness: the repeat expansion of Scenario B's body. -/
theorem claim_C7_witness :
    parseBodyOperations "*k2, p2*, rep from * to * 3 times.".data 12 [] =
      ((List.replicate (parsePositiveInt "3".data)
          (parseTokenList (trimList "k2, p2".data) [])).flatten,
        ((List.replicate (parsePositiveInt "3".data)
          (parseTokenList (trimList "k2, p2".data) [])).flatten).filterMap
            (fun op => op.warning)) :=
  claim_C7.1 "*k2, p2*, rep from * to * 3 times.".data 12 [] "k2, p2".data "3".data (by decide)

/-- After `continueDraft`, the resolved body is stored under the round number. -/
theorem continueDraft_stores (gmap : List (List Char × GlossaryEntry)) (st : FoldState)
    (rn : Nat) (raw : String) (body : String) :
    lookupResolved (continueDraft gmap st rn raw body).resolved rn = some body := by
  simp only [continueDraft]
  split
  · simp [lookupResolved, List.find?]
  · simp [lookupResolved, List.find?]

/-- C8 counterexample: in `"Rnd1:\nRnd2: see Rnd1."`, round 1 *does* get an
entry in the resolved-bodies map (the empty body), yet the back-reference to
it still records an unresolved-reference error and skips the draft — because
the source tests the looked-up value for JavaScript falsiness, an empty-string
entry behaves like a missing one, contradicting the claim's "when the target
is present, its resolved body is substituted". -/
theorem claim_C8_counterexample :
    lookupResolved
        (processDraft [] (initState 5 [])
          { roundNumber := 1, body := "", raw := "Rnd1:" }).resolved 1 = some "" ∧
    processDraft []
        (processDraft [] (initState 5 []) { roundNumber := 1, body := "", raw := "Rnd1:" })
        { roundNumber := 2, body := "see Rnd1.", raw := "Rnd2: see Rnd1." } =
      { processDraft [] (initState 5 []) { roundNumber := 1, body := "", raw := "Rnd1:" } with
          errors := (processDraft [] (initState 5 [])
            { roundNumber := 1, body := "", raw := "Rnd1:" }).errors ++
              [unresolvedMsg "Rnd2: see Rnd1." 1] } ∧
    parsePatternRows "Rnd1:\nRnd2: see Rnd1." [] 5 =
      { rows := [],
        errors := ["Rnd1: no instructions parsed.",
          "Rnd2: see Rnd1.: could not resolve reference to R1."],
        warnings := [] } := by
  exact ⟨by decide, by decide, by decide⟩

/-- C8 (amended): for a draft whose body is a back-reference `see r N`, a
lookup that finds no entry *or an empty-bodied entry* records the
unresolved-reference error and skips the draft entirely (rows, live count and
resolved map unchanged); when the target is present with a nonempty body, that
body is substituted and stored under the current round number. -/
theorem claim_C8 (gmap : List (List Char × GlossaryEntry)) (st : FoldState) (d : RoundDraft)
    (tstr : List Char) (hsee : seeMatch d.body.data = some tstr) :
    (lookupResolved st.resolved (digitsToNat tstr) = none →
      processDraft gmap st d =
        { st with errors := st.errors ++ [unresolvedMsg d.raw (digitsToNat tstr)] }) ∧
    (lookupResolved st.resolved (digitsToNat tstr) = some "" →
      processDraft gmap st d =
        { st with errors := st.errors ++ [unresolvedMsg d.raw (digitsToNat tstr)] }) ∧
    (∀ tb, lookupResolved st.resolved (digitsToNat tstr) = some tb → tb ≠ "" →
      processDraft gmap st d = continueDraft gmap st d.roundNumber d.raw tb ∧
      lookupResolved (continueDraft gmap st d.roundNumber d.raw tb).resolved d.roundNumber =
        some tb) := by
  refine ⟨?_, ?_, ?_⟩
  · intro hlk
    unfold processDraft
    rw [hsee]
    dsimp only
    rw [hlk]
  · intro hlk
    unfold processDraft
    rw [hsee]
    dsimp only
    rw [hlk]
    dsimp only
    rw [if_pos rfl]
  · intro tb hlk htb
    constructor
    · unfold processDraft
      rw [hsee]
      dsimp only
      rw [hlk]
      dsimp only
      rw [if_neg htb]
    · exact continueDraft_stores gmap st d.roundNumber d.raw tb

/-- C8 witness: a back-reference to a present, nonempty body is substituted
and stored. -/
theorem claim_C8_witness :
    processDraft [] ⟨5, [(1, "k2")], [], [], []⟩
        { roundNumber := 2, body := "see Rnd1.", raw := "Rnd2: see Rnd1." } =
      continueDraft [] ⟨5, [(1, "k2")], [], [], []⟩ 2 "Rnd2: see Rnd1." "k2" ∧
    lookupResolved
        (continueDraft [] ⟨5, [(1, "k2")], [], [], []⟩ 2 "Rnd2: see Rnd1." "k2").resolved 2 =
      some "k2" :=
  (claim_C8 [] ⟨5, [(1, "k2")], [], [], []⟩
    { roundNumber := 2, body := "see Rnd1.", raw := "Rnd2: see Rnd1." } "1".data
    (by decide)).2.2 "k2" (by decide) (by decide)

/-- C9 counterexample: with 8 live stitches entering the round, the body
`*k around*, rep from * to * 2 times.` is a repeat block whose inner token is
`k around`; each repetition is classified as a plain knit with
`consume = produce = units = 1` — not 8, the entering count the claim
requires. -/
theorem claim_C9_counterexample :
    matchRepeatBody (normalizeBodyText "*k around*, rep from * to * 2 times.".data) =
        some ("k around".data, "2".data) ∧
    (parseBodyOperations "*k around*, rep from * to * 2 times.".data 8 []).1.map
        (fun op => (op.consume, op.produce, op.units)) = [(1, 1, 1), (1, 1, 1)] := by
  exact ⟨by decide, by decide⟩

/-- C9 (amended): the expansion of a repeat-shaped body is independent of the
entering live count — only the whole-body `k around` shortcut consults it —
and a token normalizing to `k around` is classified as a plain knit with the
fixed neutral `consume = produce = units = 1` in every repetition. -/
theorem claim_C9 :
    (∀ (body : List Char) (live₁ live₂ : Nat) (gmap : List (List Char × GlossaryEntry))
      (x : List Char × List Char), matchRepeatBody (normalizeBodyText body) = some x →
      parseBodyOperations body live₁ gmap = parseBodyOperations body live₂ gmap) ∧
    (∀ (token : List Char) (gmap : List (List Char × GlossaryEntry)),
      matchKAround (collapseWS ((cleanToken token).map Char.toLower)) = true →
      parseSingleOperation token gmap =
        { code := "k", label := getGlossaryLabel ['k'] gmap,
          consume := 1, produce := 1, units := 1 }) := by
  constructor
  · intro body live₁ live₂ gmap x h
    have hk := matchRepeatBody_not_kAround h
    cases x with
    | mk inner nstr => simp [parseBodyOperations, hk, h]
  · intro token gmap h
    simp [parseSingleOperation, h]

/-- C9 witness: the repeat body of the counterexample expands identically at
live counts 8 and 99, and the token `k around` classifies to the neutral knit. -/
theorem claim_C9_witness :
    parseBodyOperations "*k around*, rep from * to * 2 times.".data 8 [] =
      parseBodyOperations "*k around*, rep from * to * 2 times.".data 99 [] ∧
    parseSingleOperation "k around".data [] =
      { code := "k", label := getGlossaryLabel ['k'] [],
        consume := 1, produce := 1, units := 1 } :=
  ⟨claim_C9.1 "*k around*, rep from * to * 2 times.".data 8 99 []
      ("k around".data, "2".data) (by decide),
    claim_C9.2 "k around".data [] (by decide)⟩

/-- C10: every count capture is coerced through the positive-integer fallback:
a zero digit-run yields 1, a positive one yields its value; the zero-count
spellings `k0tog`, `sl0`, `k0`, `p0` and `k0 from cn` classify exactly as
their count-1 forms; and a repeat block written `0 times` expands its inner
list exactly once, with no extra error or warning. -/
theorem claim_C10 :
    (∀ ds : List Char, (digitsToNat ds = 0 → parsePositiveInt ds = 1) ∧
      (0 < digitsToNat ds → parsePositiveInt ds = digitsToNat ds)) ∧
    (∀ gmap : List (List Char × GlossaryEntry),
      parseSingleOperation "k0tog".data gmap = parseSingleOperation "k1tog".data gmap ∧
      parseSingleOperation "sl0".data gmap = parseSingleOperation "sl1".data gmap ∧
      parseSingleOperation "k0".data gmap = parseSingleOperation "k1".data gmap ∧
      parseSingleOperation "p0".data gmap = parseSingleOperation "p1".data gmap ∧
      parseSingleOperation "k0 from cn".data gmap =
        parseSingleOperation "k1 from cn".data gmap) ∧
    (∀ (body : List Char) (live : Nat) (gmap : List (List Char × GlossaryEntry))
      (inner nstr : List Char),
      matchRepeatBody (normalizeBodyText body) = some (inner, nstr) →
      digitsToNat nstr = 0 →
      parseBodyOperations body live gmap =
        (parseTokenList (trimList inner) gmap,
          (parseTokenList (trimList inner) gmap).filterMap (fun op => op.warning))) := by
  refine ⟨?_, ?_, ?_⟩
  · intro ds
    constructor
    · intro h
      simp [parsePositiveInt, h]
    · intro h
      simp [parsePositiveInt, h]
  · intro gmap
    exact ⟨rfl, rfl, rfl, rfl, rfl⟩
  · intro body live gmap inner nstr h h0
    have hk := matchRepeatBody_not_kAround h
    have h1 : parsePositiveInt nstr = 1 := by simp [parsePositiveInt, h0]
    simp [parseBodyOperations, hk, h, h1]

/-- C10 witness: the `0 times` repeat block of the C7 counterexample expands
its inner list exactly once. -/
theorem claim_C10_witness :
    parseBodyOperations "*k2*, rep from * to * 0 times.".data 5 [] =
      (parseTokenList (trimList "k2".data) [],
        (parseTokenList (trimList "k2".data) []).filterMap (fun op => op.warning)) :=
  claim_C10.2.2 "*k2*, rep from * to * 0 times.".data 5 [] "k2".data "0".data
    (by decide) (by decide)

end LoopLedger
